import Mathlib

/-!
# Verification of the automapper package

Shallow embedding of the reflection-based struct mapper from the
`automapper` repository (current revision: `mapper.go` with the plan
cache and alias tags, plus `types.go` with the converter strategy).

Go reflection is embedded as explicit data: `GoType` mirrors
`reflect.Type` as the mapper inspects it, `GoVal` mirrors
`reflect.Value`, and a `StructEnv` plays the role of the runtime type
information for struct types (field names, `mapper` tags, field types,
and the CanSet flag of an addressable instance, which in Go holds
exactly for exported fields).

In-place mutation through `reflect.Value.Set` is modelled by returning
the updated destination value; Go runtime panics (for example a
`reflect.Set` with non-assignable types) are modelled by the
`Abort.goPanic` outcome, distinct from a returned `error`
(`Abort.goError`).
-/

/-- Reflect-level Go types, as far as the mapper distinguishes them.
Struct types are identified by name; their fields live in a `StructEnv`. -/
inductive GoType where
  | prim (name : String)
  | structT (name : String)
  | ptr (elem : GoType)
  | slice (elem : GoType)
  | array (size : Nat) (elem : GoType)
deriving DecidableEq, Repr

/-- Go runtime values. Primitive values carry their type name and an opaque
payload string encoding the value. `nilPtr` and `nilSlice` are the nil
pointer and the nil slice of the given element type. -/
inductive GoVal where
  | prim (tname : String) (payload : String)
  | structV (tname : String) (fields : List GoVal)
  | nilPtr (elem : GoType)
  | ptrV (elem : GoType) (pointee : GoVal)
  | nilSlice (elem : GoType)
  | sliceV (elem : GoType) (elems : List GoVal)
  | arrayV (elem : GoType) (elems : List GoVal)
deriving Repr

/-- `reflect.Value.Type` of a value. -/
def GoVal.typeOf : GoVal → GoType
  | .prim t _ => .prim t
  | .structV n _ => .structT n
  | .nilPtr e => .ptr e
  | .ptrV e _ => .ptr e
  | .nilSlice e => .slice e
  | .sliceV e _ => .slice e
  | .arrayV e es => .array es.length e

/-- The canonical payload of the zero value of a primitive type. -/
def zeroPayload (t : String) : String :=
  if t = "int" then "0"
  else if t = "float64" then "0"
  else ""

mutual

/-- `reflect.Value.IsZero`: the value is the zero value of its type. -/
def GoVal.isZero : GoVal → Bool
  | .prim t p => p == zeroPayload t
  | .structV _ fs => goListAllZero fs
  | .nilPtr _ => true
  | .ptrV _ _ => false
  | .nilSlice _ => true
  | .sliceV _ _ => false
  | .arrayV _ es => goListAllZero es

/-- All values in the list are zero values. -/
def goListAllZero : List GoVal → Bool
  | [] => true
  | v :: vs => v.isZero && goListAllZero vs

end

/-- `Kind() == reflect.Ptr`. -/
def GoVal.isPtrKind : GoVal → Bool
  | .nilPtr _ => true
  | .ptrV _ _ => true
  | _ => false

/-- `IsNil()` on a pointer-kinded value. -/
def GoVal.isNilPtr : GoVal → Bool
  | .nilPtr _ => true
  | _ => false

/-- `from.Field(i)` on a struct value; out-of-range access yields a junk
value (Go would panic, but the mapper only indexes in range). -/
def GoVal.fieldAt : GoVal → Nat → GoVal
  | .structV _ fs, i => fs.getD i (.prim "" "")
  | _, _ => .prim "" ""

/-- Writing field `i` of a struct value (the effect of `Set` on the
`reflect.Value` of that field). Non-struct values are unchanged. -/
def GoVal.updateField : GoVal → Nat → GoVal → GoVal
  | .structV n fs, i, v => .structV n (fs.set i v)
  | x, _, _ => x

/-- One declared struct field: name, `mapper` tag (empty string when the
tag is absent), declared type, and whether `CanSet` holds on an
addressable instance (true exactly for exported fields). -/
structure FieldDecl where
  name : String
  tag : String
  type : GoType
  settable : Bool
deriving DecidableEq, Repr

/-- The runtime type information for struct types: a table from struct
type name to its field declarations. -/
abbrev StructEnv := List (String × List FieldDecl)

/-- Field declarations of a struct type name. -/
def lookupStruct (env : StructEnv) (n : String) : List FieldDecl :=
  ((env.find? (fun p => p.1 == n)).map Prod.snd).getD []

/-- The matching key of a field: the `mapper` tag when present and
non-empty, the field name otherwise (`getFieldInfo` in mapper.go). -/
def fieldKey (f : FieldDecl) : String :=
  if f.tag ≠ "" then f.tag else f.name

/-- The strategy tags of types.go (`supportedType`). -/
inductive supportedType where
  | unsupported
  | structs
  | slices
  | arrays
  | sameTypes
  | converterFunc
deriving DecidableEq, Repr

/-- `fieldInfo` of mapper.go: source or destination field position and
its current `reflect.Value`. -/
structure fieldInfo where
  index : Nat
  val : GoVal
deriving Repr

/-- `fieldMappingInfo` of mapper.go: one recorded plan entry. The stored
`mapperFunc` closure is always `m.strats[mappingType]`, so it is recorded
here as the strategy tag it dispatches to. -/
structure fieldMappingInfo where
  fromIndex : Nat
  toIndex : Nat
  strat : supportedType
deriving DecidableEq, Repr

/-- The observable outcomes of the second return value of a two-return
converter, as seen through `outArgs[1].Interface()`:
a nil error (which yields a nil interface value), a non-nil error with
its message, or a value whose dynamic type does not implement `error`. -/
inductive SndRet where
  | nilIface
  | errVal (msg : String)
  | nonError
deriving DecidableEq, Repr

/-- A registered converter function. `argType` and `retType` are
`fn.In(0)` and `fn.Out(0)`. `fn` gives the first return value; `snd` is
present exactly for the two-return form and gives the second return
value. -/
structure ConvFn where
  argType : GoType
  retType : GoType
  fn : GoVal → GoVal
  snd : Option (GoVal → SndRet)

/-- The `Mapper` state: the converter registry and the plan cache
(`knownMappings`). The `strats` table of the Go code is a fixed
dispatch from strategy tags to the strategy functions and is embedded
as `applyStrat` below. `discoveries` is ghost instrumentation counting
how many times the full field discovery (`getFieldInfo` followed by
matching and classification) has run; it has no effect on any mapping
result and exists only to observe the plan-cache behavior. -/
structure Mapper where
  converters : List ((GoType × GoType) × ConvFn)
  knownMappings : List ((GoType × GoType) × List fieldMappingInfo)
  discoveries : Nat

/-- The fresh mapper produced by `New()`. -/
def Mapper.new : Mapper := ⟨[], [], 0⟩

/-- Lookup in the converter registry map, keyed by `converterInfo`. -/
def lookupConv (cs : List ((GoType × GoType) × ConvFn)) (a b : GoType) :
    Option ConvFn :=
  ((cs.find? (fun p => p.1 == (a, b))).map Prod.snd)

/-- `Set` of mapper.go: register a converter, overwriting any earlier
converter for the same ordered type pair (new entries shadow old ones
under `lookupConv`). The `NotAFn` guard is not reachable here because a
`ConvFn` is a function by construction. -/
def Mapper.set (m : Mapper) (c : ConvFn) : Mapper :=
  { m with converters := ((c.argType, c.retType), c) :: m.converters }

/-- Lookup in the plan cache, keyed by `structMappingInfo`. -/
def lookupKM (km : List ((GoType × GoType) × List fieldMappingInfo))
    (k : GoType × GoType) : Option (List fieldMappingInfo) :=
  ((km.find? (fun p => p.1 == k)).map Prod.snd)

/-- Store a plan under a key in the plan cache, replacing any previous
plan for that key (Go map assignment). -/
def storeKM (km : List ((GoType × GoType) × List fieldMappingInfo))
    (k : GoType × GoType) (v : List fieldMappingInfo) :
    List ((GoType × GoType) × List fieldMappingInfo) :=
  if km.any (fun p => p.1 == k) then
    km.map (fun p => if p.1 == k then (k, v) else p)
  else km ++ [(k, v)]

/-- Append one entry to the plan stored under a key
(`m.knownMappings[mappingInfo] = append(...)`). -/
def appendKM (km : List ((GoType × GoType) × List fieldMappingInfo))
    (k : GoType × GoType) (e : fieldMappingInfo) :
    List ((GoType × GoType) × List fieldMappingInfo) :=
  storeKM km k ((lookupKM km k).getD [] ++ [e])

/-- The Go errors of mapper.go, with the data their `fmt.Errorf`
wrapping records. `missingConverter` is `ErrMissingConverter` wrapped
with both field types; `missingConverterBare` is the unwrapped
`ErrMissingConverter` returned by `mapConverterFunc`; `converter` is
`ErrConverter` wrapped with the converter-reported message;
`wrapSetArray` is the `error in setArrayValue` wrapping. -/
inductive MapError where
  | notAPtr
  | notAFn
  | missingConverter (fromT toT : GoType)
  | missingConverterBare
  | converter (msg : String)
  | converterUnknownType
  | wrapSetArray (e : MapError)
deriving DecidableEq, Repr

/-- How a call can abort: by returning a Go `error`, or by a runtime
panic raised inside the reflect package. -/
inductive Abort where
  | goError (e : MapError)
  | goPanic (msg : String)
deriving DecidableEq, Repr

/-- True exactly when the abort outcome is a returned Go error (as
opposed to a runtime panic or normal completion). -/
def isGoError : Option Abort → Bool
  | some (.goError _) => true
  | _ => false

/-- Renders a `GoType` the way `fmt` renders a `reflect.Type`. -/
def GoType.render : GoType → String
  | .prim t => t
  | .structT n => n
  | .ptr e => "*" ++ e.render
  | .slice e => "[]" ++ e.render
  | .array n e => "[" ++ toString n ++ "]" ++ e.render

/-- The message of each error as the caller observes it through
`Error()`, following the `errors.New` texts and `fmt.Errorf` formats of
mapper.go. -/
def errMsg : MapError → String
  | .notAPtr => "value is not a ptr"
  | .notAFn => "value is not a function"
  | .missingConverter a b =>
      "converter is missing for types " ++ "'" ++ a.render ++ " -> " ++
        b.render ++ "'"
  | .missingConverterBare => "converter is missing for types"
  | .converter msg => "converter error" ++ ": " ++ msg
  | .converterUnknownType =>
      "converter 2nd return value cannot be converted to error"
  | .wrapSetArray e => "error in setArrayValue: " ++ errMsg e

/-- `isStructOrPtrToStruct` of types.go. -/
def isStructOrPtrToStruct : GoType → Bool
  | .structT _ => true
  | .ptr (.structT _) => true
  | _ => false

/-- The skip condition of the source loop of `getFieldInfo`:
`fieldVal.IsZero() || (Kind == Ptr && IsNil())`. -/
def skipSrc (v : GoVal) : Bool :=
  v.isZero || (v.isPtrKind && v.isNilPtr)

/-- Go map insertion into a field-info map: overwrite the entry with the
same key when present, append a new entry otherwise. -/
def upsertF (l : List (String × fieldInfo)) (k : String) (v : fieldInfo) :
    List (String × fieldInfo) :=
  if l.any (fun p => p.1 == k) then
    l.map (fun p => if p.1 == k then (k, v) else p)
  else l ++ [(k, v)]

/-- One enumeration loop of `getFieldInfo`: walk the field declarations
together with the field values, keep the fields satisfying `keep`, and
insert them into the map under their `fieldKey`. `i` is the field index. -/
def collectFields (keep : FieldDecl → GoVal → Bool) :
    Nat → List FieldDecl → List GoVal → List (String × fieldInfo) →
    List (String × fieldInfo)
  | _, [], _, acc => acc
  | _, _, [], acc => acc
  | i, d :: ds, v :: vs, acc =>
    if keep d v then
      collectFields keep (i + 1) ds vs (upsertF acc (fieldKey d) ⟨i, v⟩)
    else
      collectFields keep (i + 1) ds vs acc

/-- `getFieldInfo` of mapper.go: build the source field map (skipping
zero and nil-pointer source values) and the destination field map
(skipping fields that are not settable). Non-struct arguments yield
empty maps; the callers only pass struct values. -/
def getFieldInfo (env : StructEnv) (fromV toV : GoVal) :
    List (String × fieldInfo) × List (String × fieldInfo) :=
  match fromV, toV with
  | .structV fn fvals, .structV tn tvals =>
    (collectFields (fun _ v => !skipSrc v) 0 (lookupStruct env fn) fvals [],
     collectFields (fun d _ => d.settable) 0 (lookupStruct env tn) tvals [])
  | _, _ => ([], [])

/-- Lookup of a key in a field-info map. -/
def lookupF (l : List (String × fieldInfo)) (k : String) : Option fieldInfo :=
  ((l.find? (fun p => p.1 == k)).map Prod.snd)

/-- `detectMappingType` of types.go (the method form): a registered
converter for the exact value-type pair wins, then identical types, then
struct or pointer-to-struct on both sides, then slices of such, then
arrays of such; otherwise unsupported. -/
def detectMappingType (m : Mapper) (fromVal toVal : fieldInfo) :
    supportedType :=
  let fromType := fromVal.val.typeOf
  let toType := toVal.val.typeOf
  if (lookupConv m.converters fromType toType).isSome then .converterFunc
  else if toType = fromType then .sameTypes
  else if isStructOrPtrToStruct fromType && isStructOrPtrToStruct toType then
    .structs
  else if (match fromType with
            | .slice e => isStructOrPtrToStruct e
            | _ => false) &&
          (match toType with
            | .slice e => isStructOrPtrToStruct e
            | _ => false) then .slices
  else if (match fromType with
            | .array _ e => isStructOrPtrToStruct e
            | _ => false) &&
          (match toType with
            | .array _ e => isStructOrPtrToStruct e
            | _ => false) then .arrays
  else .unsupported

/-- `reflect.New(t).Elem()`: zero value of a type. The fuel bounds the
nesting depth of struct types reached through the environment (Go struct
types cannot contain themselves by value, so any well-formed type has a
finite depth). -/
def zeroVal (env : StructEnv) : Nat → GoType → GoVal
  | _, .prim t => .prim t (zeroPayload t)
  | _, .ptr e => .nilPtr e
  | _, .slice e => .nilSlice e
  | 0, .structT n => .structV n []
  | fuel + 1, .structT n =>
      .structV n ((lookupStruct env n).map (fun f => zeroVal env fuel f.type))
  | 0, .array k e => .arrayV e (List.replicate k (.prim "" ""))
  | fuel + 1, .array k e => .arrayV e (List.replicate k (zeroVal env fuel e))

/-- The result of one mapping step on a destination value: the updated
destination, the abort outcome when the step failed, and the updated
mapper state. -/
abbrev MapStep := GoVal × Option Abort × Mapper

/-- The type of the recursive entry point threaded through the strategy
functions: `m.mapStructs` applied at one less unit of fuel. The source
argument is `none` when the Go `reflect.Value` is invalid (the zero
`reflect.Value`, as produced by `Elem()` of a nil pointer). -/
abbrev RecFn := Mapper → Option GoVal → GoVal → MapStep

/-- `mapSameTypesFunc` of types.go: `toVal.Set(fromVal)`. The `Set`
panics when the types are not assignable; the dispatcher only reaches
this strategy with equal types. -/
def mapSameTypesFunc (fromVal toVal : GoVal) : GoVal × Option Abort :=
  if fromVal.typeOf = toVal.typeOf then (fromVal, none)
  else (toVal, some (.goPanic "reflect.Set of incompatible types"))

/-- `mapConverterFunc` of types.go: look the converter up again by the
value types, call it, `Set` the first return value into the destination
field, then inspect the second return value when there is one. Note that
the destination is set before the error handling, and that the type
assertion `outArgs[1].Interface().(error)` fails on a nil error (the
interface value is nil), yielding `ErrConverterErrorUnknownType`. -/
def mapConverterFunc (m : Mapper) (fromVal toVal : GoVal) :
    GoVal × Option Abort :=
  match lookupConv m.converters fromVal.typeOf toVal.typeOf with
  | none => (toVal, some (.goError .missingConverterBare))
  | some c =>
    let out := c.fn fromVal
    if out.typeOf = toVal.typeOf then
      match c.snd with
      | none => (out, none)
      | some g =>
        match g fromVal with
        | .nilIface => (out, some (.goError .converterUnknownType))
        | .nonError => (out, some (.goError .converterUnknownType))
        | .errVal msg => (out, some (.goError (.converter msg)))
    else (toVal, some (.goPanic "reflect.Set of incompatible types"))

/-- The source unwrapping of `mapStructsFunc`:
`if fromVal.Kind() == Ptr, fromVal = fromVal.Elem()`. The `Elem()` of a
nil pointer is the invalid value, passed on as `none`. -/
def elemIfPtr : GoVal → Option GoVal
  | .ptrV _ v => some v
  | .nilPtr _ => none
  | v => some v

/-- `mapStructsFunc` of types.go: unwrap a pointer source, allocate a
fresh zero struct behind a pointer destination, and recurse into
`mapStructs`. -/
def mapStructsFunc (recurse : RecFn) (env : StructEnv) (fuel : Nat)
    (m : Mapper) (fromVal toVal : GoVal) : MapStep :=
  let fromArg : Option GoVal := elemIfPtr fromVal
  match toVal with
  | .ptrV e _ =>
    let (inner, ab, m') := recurse m fromArg (zeroVal env fuel e)
    (.ptrV e inner, ab, m')
  | .nilPtr e =>
    let (inner, ab, m') := recurse m fromArg (zeroVal env fuel e)
    (.ptrV e inner, ab, m')
  | t =>
    let (inner, ab, m') := recurse m fromArg t
    (inner, ab, m')

/-- The loop body of `setArrayValue` for one source element: allocate a
fresh zero destination element (`reflect.New`, behind a pointer when the
destination element type is a pointer) and map the source element into
it: directly for a struct source element, through `Elem()` for a pointer
source element (`Elem()` of a nil pointer is the invalid value, and the
mapping of an invalid source is a no-op). -/
def setArrayElem (recurse : RecFn) (env : StructEnv) (fuel : Nat)
    (fromElemT toElemT : GoType) (m : Mapper) (v : GoVal) :
    GoVal × Option Abort × Mapper :=
  let innerT := match toElemT with | .ptr e => e | e => e
  let zeroElem := zeroVal env fuel innerT
  match fromElemT with
  | .structT _ => recurse m (some v) zeroElem
  | .ptr _ =>
    (match v with
     | .ptrV _ pv => recurse m (some pv) zeroElem
     | .nilPtr _ => recurse m none zeroElem
     | _ =>
       (zeroElem,
        some (.goPanic "reflect: call of reflect.Value.Elem on non-ptr Value"),
        m))
  | _ => (zeroElem, none, m)

/-- `setArrayValue` of types.go: for each source element, build the
destination element with `setArrayElem` and place it at the same index.
The built element list is returned; the caller installs it. On an abort
the partial list is dropped because the caller never installs it. -/
def setArrayValue (recurse : RecFn) (env : StructEnv) (fuel : Nat)
    (fromElemT toElemT : GoType) :
    Mapper → List GoVal → List GoVal × Option Abort × Mapper
  | m, [] => ([], none, m)
  | m, v :: vs =>
    match setArrayElem recurse env fuel fromElemT toElemT m v with
    | (_, some a, m') => ([], some a, m')
    | (mappedInner, none, m') =>
      let elemOut :=
        match toElemT with
        | .ptr e => GoVal.ptrV e mappedInner
        | _ => mappedInner
      match setArrayValue recurse env fuel fromElemT toElemT m' vs with
      | (rest, ab2, m'') => (elemOut :: rest, ab2, m'')

/-- `mapSlicesFunc` of types.go: make a destination slice of the source
length, fill it with `setArrayValue`, wrap a returned error in the
`error in setArrayValue` message, and `Set` the slice on success. -/
def mapSlicesFunc (recurse : RecFn) (env : StructEnv) (fuel : Nat)
    (m : Mapper) (fromVal toVal : GoVal) : MapStep :=
  match toVal.typeOf with
  | .slice toElem =>
    match fromVal with
    | .nilSlice fe =>
      match setArrayValue recurse env fuel fe toElem m [] with
      | (es, _, m') => (.sliceV toElem es, none, m')
    | .sliceV fe elems =>
      match setArrayValue recurse env fuel fe toElem m elems with
      | (_, some (.goError e), m') =>
          (toVal, some (.goError (.wrapSetArray e)), m')
      | (_, some (.goPanic p), m') => (toVal, some (.goPanic p), m')
      | (es, none, m') => (.sliceV toElem es, none, m')
    | _ =>
      (toVal,
       some (.goPanic "reflect: call of reflect.Value.Len on zero Value"), m)
  | _ => (toVal, some (.goPanic "reflect.MakeSlice of non-slice type"), m)

/-- `mapArraysFunc` of types.go: build an array of the source length
with the destination element type, fill it with `setArrayValue`, and
`Set` it into the destination. The `Set` panics when the built array
type (whose length is the source length) differs from the destination
array type. -/
def mapArraysFunc (recurse : RecFn) (env : StructEnv) (fuel : Nat)
    (m : Mapper) (fromVal toVal : GoVal) : MapStep :=
  match toVal.typeOf with
  | .array _ toElem =>
    match fromVal with
    | .arrayV fe elems =>
      match setArrayValue recurse env fuel fe toElem m elems with
      | (_, some (.goError e), m') =>
          (toVal, some (.goError (.wrapSetArray e)), m')
      | (_, some (.goPanic p), m') => (toVal, some (.goPanic p), m')
      | (es, none, m') =>
        if (GoVal.arrayV toElem es).typeOf = toVal.typeOf then
          (.arrayV toElem es, none, m')
        else
          (toVal, some (.goPanic "reflect.Set of incompatible array types"),
           m')
    | _ =>
      (toVal,
       some (.goPanic "reflect: call of reflect.Value.Len on zero Value"), m)
  | _ => (toVal, some (.goPanic "reflect.ArrayOf of non-array destination"), m)

/-- The `strats` dispatch table built by `initStrategies`. The
`unsupported` tag has no entry in the Go map, so dispatching it would
call a nil `mapperFunc`; the callers guard against it. -/
def applyStrat (recurse : RecFn) (env : StructEnv) (fuel : Nat) (m : Mapper) :
    supportedType → GoVal → GoVal → MapStep
  | .structs, f, t => mapStructsFunc recurse env fuel m f t
  | .slices, f, t => mapSlicesFunc recurse env fuel m f t
  | .arrays, f, t => mapArraysFunc recurse env fuel m f t
  | .sameTypes, f, t =>
    match mapSameTypesFunc f t with
    | (v, ab) => (v, ab, m)
  | .converterFunc, f, t =>
    match mapConverterFunc m f t with
    | (v, ab) => (v, ab, m)
  | .unsupported, _, t => (t, some (.goPanic "call of nil mapperFunc"), m)

/-- `mapKnownStruct` of mapper.go: replay a recorded plan by applying
each recorded strategy to the recorded field indices of the new
instances, stopping at the first failure. -/
def mapKnownStruct (recurse : RecFn) (env : StructEnv) (fuel : Nat) :
    List fieldMappingInfo → Mapper → GoVal → GoVal → MapStep
  | [], m, _, toV => (toV, none, m)
  | e :: rest, m, fromV, toV =>
    match applyStrat recurse env fuel m e.strat (fromV.fieldAt e.fromIndex)
        (toV.fieldAt e.toIndex) with
    | (nf, ab, m') =>
      let toV' := toV.updateField e.toIndex nf
      match ab with
      | some a => (toV', some a, m')
      | none => mapKnownStruct recurse env fuel rest m' fromV toV'

/-- The field loop of `mapStructs` in mapper.go: for each discovered
source field, find the destination field with the same key, classify the
pair, apply the strategy, record the plan entry, and fail with
`ErrMissingConverter` (wrapped with both field value types) on an
unsupported pair. -/
def processFields (recurse : RecFn) (env : StructEnv) (fuel : Nat)
    (key : GoType × GoType) :
    List (String × fieldInfo) → List (String × fieldInfo) → Mapper →
    GoVal → MapStep
  | [], _, m, toV => (toV, none, m)
  | (name, fromVal) :: rest, toFields, m, toV =>
    match lookupF toFields name with
    | none => processFields recurse env fuel key rest toFields m toV
    | some toVal =>
      let mt := detectMappingType m fromVal toVal
      if mt ≠ supportedType.unsupported then
        match applyStrat recurse env fuel m mt fromVal.val toVal.val with
        | (nf, ab, m') =>
          let toV' := toV.updateField toVal.index nf
          match ab with
          | some a => (toV', some a, m')
          | none =>
            let m'' := { m' with
              knownMappings := appendKM m'.knownMappings key
                ⟨fromVal.index, toVal.index, mt⟩ }
            processFields recurse env fuel key rest toFields m'' toV'
      else
        (toV,
         some (.goError (.missingConverter fromVal.val.typeOf
           toVal.val.typeOf)), m)

/-- `mapStructs` of mapper.go (the plan-cache revision): an invalid
source returns nil; then, when a plan exists for the shape pair, it is
replayed (an error aborts the call); then the stored plan is reset to
empty, the field maps are rebuilt, and the discovery loop runs,
appending plan entries as it goes. Note there is no early return after a
successful replay. The fuel only bounds the recursion depth. -/
def mapStructs (env : StructEnv) : Nat → Mapper → Option GoVal → GoVal →
    MapStep
  | 0, m, _, toV => (toV, some (.goPanic "recursion fuel exhausted"), m)
  | fuel + 1, m, fromOpt, toV =>
    match fromOpt with
    | none => (toV, none, m)
    | some fromV =>
      let key := (fromV.typeOf, toV.typeOf)
      match
        (match lookupKM m.knownMappings key with
         | some plan =>
           mapKnownStruct (mapStructs env fuel) env fuel plan m fromV toV
         | none => (toV, none, m)) with
      | (toV1, some a, m1) => (toV1, some a, m1)
      | (toV1, none, m1) =>
        let m2 := { m1 with knownMappings := storeKM m1.knownMappings key [] }
        match getFieldInfo env fromV toV1 with
        | (fromFields, toFields) =>
          let m3 := { m2 with discoveries := m2.discoveries + 1 }
          processFields (mapStructs env fuel) env fuel key fromFields
            toFields m3 toV1

/-- `valFrom.Elem()` on an entry argument: the pointee of a non-nil
pointer, the invalid value for a nil pointer, and a panic for any
non-pointer value. -/
def elemArg : GoVal → Except String (Option GoVal)
  | .ptrV _ v => .ok (some v)
  | .nilPtr _ => .ok none
  | _ => .error "reflect: call of reflect.Value.Elem on non-ptr Value"

/-- The entry test for the top-level slice form: a pointer to a slice of
structs or of pointers to structs. -/
def topSliceArg : GoType → Bool
  | .ptr (.slice e) => isStructOrPtrToStruct e
  | _ => false

/-- `Map` of mapper.go (the plan-cache revision): pointers to slices of
structs go to `mapSlicesFunc`, structs or pointers to structs go to
`mapStructs`, and every other argument shape falls through both tests
and returns nil without touching anything. `ErrNotAPtr` is declared but
never returned in this revision. -/
def Mapper.Map (env : StructEnv) (fuel : Nat) (m : Mapper)
    (fromV toV : GoVal) : MapStep :=
  let typeFrom := fromV.typeOf
  let typeTo := toV.typeOf
  if topSliceArg typeFrom && topSliceArg typeTo then
    match toV with
    | .ptrV e tv =>
      match fromV with
      | .ptrV _ fv =>
        match mapSlicesFunc (mapStructs env fuel) env fuel m fv tv with
        | (tv', ab, m') => (.ptrV e tv', ab, m')
      | _ =>
        (toV,
         some (.goPanic "reflect: call of reflect.Value.Len on zero Value"),
         m)
    | _ =>
      (toV,
       some (.goPanic "reflect: call of reflect.Value.Type on zero Value"),
       m)
  else if isStructOrPtrToStruct typeFrom && isStructOrPtrToStruct typeTo then
    match elemArg fromV with
    | .error msg => (toV, some (.goPanic msg), m)
    | .ok fromOpt =>
      match toV with
      | .ptrV e tv =>
        match mapStructs env fuel m fromOpt tv with
        | (tv', ab, m') => (.ptrV e tv', ab, m')
      | .nilPtr _ =>
        match fromOpt with
        | none => (toV, none, m)
        | some _ =>
          (toV,
           some (.goPanic "reflect: call of reflect.Value.Type on zero Value"),
           m)
      | _ =>
        (toV,
         some (.goPanic "reflect: call of reflect.Value.Elem on non-ptr Value"),
         m)
  else (toV, none, m)

/-! ## Concrete scenario data

A fixed struct environment mirroring the record shapes of the test file
(`Simple1`, `Simple2`, converter pairs, array pairs), plus shapes used
by the individual scenarios below. -/

/-- The junk default used when indexing lists of values. -/
def dV : GoVal := .prim "" ""

/-- Struct declarations for the concrete scenarios. -/
def testEnv : StructEnv :=
  [("Simple1",
    [⟨"Int", "", .prim "int", true⟩, ⟨"String", "", .prim "string", true⟩,
     ⟨"Time", "", .prim "time.Time", true⟩]),
   ("Simple2",
    [⟨"Int", "", .prim "int", true⟩, ⟨"String", "", .prim "string", true⟩,
     ⟨"Time", "", .prim "time.Time", true⟩]),
   ("Conv1", [⟨"Field1", "", .prim "int", true⟩]),
   ("Conv2", [⟨"Field1", "", .prim "string", true⟩]),
   ("CS1", [⟨"Field1", "", .prim "int", true⟩]),
   ("CS2", [⟨"Field1", "", .prim "string", true⟩]),
   ("IS1", [⟨"Field1", "", .prim "int", true⟩]),
   ("IS2", [⟨"Field1", "", .prim "string", true⟩]),
   ("NS1", [⟨"Field1", "", .prim "int", true⟩]),
   ("NS2", [⟨"Field1", "", .prim "string", true⟩]),
   ("WS1", [⟨"Field1", "", .prim "int", true⟩]),
   ("WS2", [⟨"Field1", "", .prim "string", true⟩]),
   ("Z1", [⟨"Int", "", .prim "int", true⟩]),
   ("Z2", [⟨"Int", "", .prim "int", true⟩]),
   ("R1", [⟨"Int", "", .prim "int", true⟩]),
   ("R2", [⟨"Int", "", .prim "int", true⟩]),
   ("E1", [⟨"X", "", .prim "int", true⟩]),
   ("E2", [⟨"X", "", .prim "int", true⟩]),
   ("ArrA", [⟨"F", "", .array 2 (.structT "E1"), true⟩]),
   ("ArrB", [⟨"F", "", .array 1 (.structT "E2"), true⟩])]

/-- An int-to-decimal-string converter in the single-return form, like
`strconv.Itoa`; on the payload encoding the conversion is the identity. -/
def intToString : ConvFn :=
  ⟨.prim "int", .prim "string",
   fun v => match v with
     | .prim _ p => .prim "string" p
     | _ => .prim "string" "", none⟩

/-- The second return value of a two-return converter that always
succeeds: a nil error. -/
def nilSnd : GoVal → SndRet := fun _ => .nilIface

/-- A two-return int-to-string converter that always succeeds (returns a
nil error). -/
def intToStringNil : ConvFn :=
  ⟨.prim "int", .prim "string",
   fun v => match v with
     | .prim _ p => .prim "string" p
     | _ => .prim "string" "", some nilSnd⟩

/-- The second return value of a two-return converter that always fails
with the message boom. -/
def boomSnd : GoVal → SndRet := fun _ => .errVal "boom"

/-- A two-return int-to-string converter that always reports failure. -/
def intToStringBoom : ConvFn :=
  ⟨.prim "int", .prim "string",
   fun v => match v with
     | .prim _ p => .prim "string" p
     | _ => .prim "string" "", some boomSnd⟩

/-! ## Concrete runs used as claim evidence -/

/-- First call of the C2 scenario: map `Z1{Int:1}` into `Z2{Int:0}` with
a fresh mapper; this installs a plan for the pair `(Z1, Z2)`. -/
def c2call1 : MapStep :=
  Mapper.Map testEnv 9 Mapper.new
    (.ptrV (.structT "Z1") (.structV "Z1" [.prim "int" "1"]))
    (.ptrV (.structT "Z2") (.structV "Z2" [.prim "int" "0"]))

/-- Second call of the C2 scenario, on the mapper state left by the
first call: the source field is now zero and the destination field holds
5. -/
def c2call2 : MapStep :=
  Mapper.Map testEnv 9 c2call1.2.2
    (.ptrV (.structT "Z1") (.structV "Z1" [.prim "int" "0"]))
    (.ptrV (.structT "Z2") (.structV "Z2" [.prim "int" "5"]))

/-- C2: the claim states that on every mapping call a destination field
whose source counterpart holds the elementary zero value retains its
prior value. The code violates this on the second call for a shape pair:
the cached plan is replayed by `mapKnownStruct` without re-checking the
zero-skip filter of `getFieldInfo`, so the zero source field overwrites
the destination value 5 with 0, and the call reports no error. The
re-run discovery then skips the zero source field, leaving the zero in
place. -/
theorem c2_replay_overwrites_with_zero :
    c2call2.1 = .ptrV (.structT "Z2") (.structV "Z2" [.prim "int" "0"]) ∧
    c2call2.2.1 = none := ⟨rfl, rfl⟩

/-- First call of the C5 scenario: map `R1{Int:1}` into `R2{Int:0}` with
a fresh mapper. -/
def c5call1 : MapStep :=
  Mapper.Map testEnv 9 Mapper.new
    (.ptrV (.structT "R1") (.structV "R1" [.prim "int" "1"]))
    (.ptrV (.structT "R2") (.structV "R2" [.prim "int" "0"]))

/-- Second call of the C5 scenario for the same shape pair. -/
def c5call2 : MapStep :=
  Mapper.Map testEnv 9 c5call1.2.2
    (.ptrV (.structT "R1") (.structV "R1" [.prim "int" "7"]))
    (.ptrV (.structT "R2") (.structV "R2" [.prim "int" "0"]))

/-- C5: the claim states a second mapping call for a cached shape pair
replays the plan without re-running field matching and classification.
The code replays the plan but then falls through (there is no return
after the successful replay in `mapStructs`), resets the stored plan,
and runs the full discovery again: the ghost discovery counter reaches 2
after two calls, where the claim implies 1. -/
theorem c5_replay_reruns_discovery :
    c5call1.2.2.discoveries = 1 ∧ c5call2.2.2.discoveries = 2 ∧
    c5call2.2.1 = none := ⟨rfl, rfl, rfl⟩

/-- C6: the claim states `Map` fails with the not-a-reference error
(`ErrNotAPtr`) when either argument is not a mutable reference. In this
revision the check is gone: two plain int arguments fall through both
argument-shape tests and the call returns nil, mapping nothing. -/
theorem c6_nonpointer_args_return_nil :
    Mapper.Map testEnv 9 Mapper.new (.prim "int" "5") (.prim "int" "6") =
      (.prim "int" "6", none, Mapper.new) := rfl

/-- The C9 scenario: a two-return int-to-string converter returning a
nil error, applied to `NS1{Field1:2}` mapped into `NS2`. -/
def c9run : MapStep :=
  Mapper.Map testEnv 9 (Mapper.new.set intToStringNil)
    (.ptrV (.structT "NS1") (.structV "NS1" [.prim "int" "2"]))
    (.ptrV (.structT "NS2") (.structV "NS2" [.prim "string" ""]))

/-- C9: the claim states a two-return converter whose failure indicator
signals success (a nil error) completes the field mapping without any
error. In `mapConverterFunc` the type assertion
`outArgs[1].Interface().(error)` is applied to the nil interface value
obtained from a nil error, so the assertion fails and the call returns
`ErrConverterErrorUnknownType` even though the converter succeeded (the
destination field is even set to the converted value first). -/
theorem c9_nil_error_yields_unknown_type :
    c9run.2.1 = some (.goError .converterUnknownType) ∧
    c9run.1 = .ptrV (.structT "NS2") (.structV "NS2" [.prim "string" "2"]) :=
  ⟨rfl, rfl⟩

/-- The C3 counterexample scenario: a two-return int-to-string converter
returning a nil error, applied to `IS1{Field1:7}` mapped into `IS2`. -/
def c3run : MapStep :=
  Mapper.Map testEnv 9 (Mapper.new.set intToStringNil)
    (.ptrV (.structT "IS1") (.structV "IS1" [.prim "int" "7"]))
    (.ptrV (.structT "IS2") (.structV "IS2" [.prim "string" ""]))

/-- C3 counterexample: the registered converter is selected and
succeeds (its failure indicator is nil) and the destination field equals
the converted value, yet the call reports an error, contradicting the
claim that a successful converter invocation reports no error for that
field. -/
theorem c3_counterexample :
    c3run.1 = .ptrV (.structT "IS2") (.structV "IS2" [.prim "string" "7"]) ∧
    c3run.2.1 = some (.goError .converterUnknownType) := ⟨rfl, rfl⟩

/-- The C7 counterexample scenario: a `[2]E1` source array field mapped
into a `[1]E2` destination array field (struct element types, non-zero
source elements). -/
def c7run : MapStep :=
  Mapper.Map testEnv 9 Mapper.new
    (.ptrV (.structT "ArrA")
      (.structV "ArrA"
        [.arrayV (.structT "E1")
          [.structV "E1" [.prim "int" "1"], .structV "E1" [.prim "int" "1"]]]))
    (.ptrV (.structT "ArrB")
      (.structV "ArrB"
        [.arrayV (.structT "E2") [.structV "E2" [.prim "int" "0"]]]))

/-- C7 counterexample: on fixed-length array fields of differing
lengths the call does not return an error value: it aborts with a
runtime panic from the `reflect.Set` of the differently-lengthed built
array (the destination is left untouched, so no truncation or padding
happens, but the claim as stated says an error is raised). -/
theorem c7_counterexample :
    c7run.2.1 = some (.goPanic "reflect.Set of incompatible array types") ∧
    isGoError c7run.2.1 = false ∧
    c7run.1 = .ptrV (.structT "ArrB")
      (.structV "ArrB"
        [.arrayV (.structT "E2") [.structV "E2" [.prim "int" "0"]]]) :=
  ⟨rfl, rfl, rfl⟩

/-- The C8 counterexample scenario: a failing two-return converter on
the field `Field1`. -/
def c8run : MapStep :=
  Mapper.Map testEnv 9 (Mapper.new.set intToStringBoom)
    (.ptrV (.structT "WS1") (.structV "WS1" [.prim "int" "3"]))
    (.ptrV (.structT "WS2") (.structV "WS2" [.prim "string" ""]))

/-- C8 counterexample: the converter reports failure with message boom
on destination field `Field1`; the whole call fails with the
`ErrConverter` wrapping, but the error carries only the converter
message. Its rendered text is exactly `converter error: boom` and the
destination field name `Field1` does not occur in it (in this revision
`mapConverterFunc` has no access to the field name, unlike the earlier
revision of `mapStructs` which wrapped it). -/
theorem c8_counterexample :
    c8run.2.1 = some (.goError (.converter "boom")) ∧
    errMsg (.converter "boom") = "converter error: boom" ∧
    ¬ ("Field1".toList <:+: "converter error: boom".toList) :=
  ⟨rfl, rfl, by decide⟩

/-! ## Preservation of the converter registry

Mapping never modifies the converter registry (only `Set` does). These
lemmas thread that invariant through every strategy, the plan replay,
the discovery loop, and `mapStructs` itself. -/

/-- The per-element step of `setArrayValue` preserves the registry. -/
theorem setArrayElem_converters (recurse : RecFn) (env : StructEnv)
    (fuel : Nat) (fe te : GoType) (m : Mapper) (v : GoVal)
    (hr : ∀ m f t, ((recurse m f t).2.2).converters = m.converters) :
    ((setArrayElem recurse env fuel fe te m v).2.2).converters =
      m.converters := by
  unfold setArrayElem
  cases fe with
  | structT n => exact hr m _ _
  | ptr e => cases v <;> first | exact hr m _ _ | rfl
  | prim n => rfl
  | slice e => rfl
  | array k e => rfl

/-- `setArrayValue` preserves the registry. -/
theorem setArrayValue_converters (recurse : RecFn) (env : StructEnv)
    (fuel : Nat) (fe te : GoType)
    (hr : ∀ m f t, ((recurse m f t).2.2).converters = m.converters) :
    ∀ (vs : List GoVal) (m : Mapper),
      ((setArrayValue recurse env fuel fe te m vs).2.2).converters =
        m.converters := by
  intro vs
  induction vs with
  | nil => intro m; rfl
  | cons v vs ih =>
    intro m
    rw [setArrayValue]
    have h2 := setArrayElem_converters recurse env fuel fe te m v hr
    rcases h : setArrayElem recurse env fuel fe te m v with ⟨mi, ab, m'⟩
    rw [h] at h2
    cases ab with
    | some a => simpa using h2
    | none =>
      simpa using (ih m').trans h2

/-- `mapStructsFunc` preserves the registry. -/
theorem mapStructsFunc_converters (recurse : RecFn) (env : StructEnv)
    (fuel : Nat) (m : Mapper) (f t : GoVal)
    (hr : ∀ m f t, ((recurse m f t).2.2).converters = m.converters) :
    ((mapStructsFunc recurse env fuel m f t).2.2).converters =
      m.converters := by
  unfold mapStructsFunc
  cases t with
  | ptrV e p =>
    have h2 := hr m (elemIfPtr f) (zeroVal env fuel e)
    dsimp only
    rcases h : recurse m (elemIfPtr f) (zeroVal env fuel e) with ⟨i, ab, m'⟩
    rw [h] at h2
    simpa using h2
  | nilPtr e =>
    have h2 := hr m (elemIfPtr f) (zeroVal env fuel e)
    dsimp only
    rcases h : recurse m (elemIfPtr f) (zeroVal env fuel e) with ⟨i, ab, m'⟩
    rw [h] at h2
    simpa using h2
  | prim a b =>
    have h2 := hr m (elemIfPtr f) (.prim a b)
    dsimp only
    rcases h : recurse m (elemIfPtr f) (.prim a b) with ⟨i, ab, m'⟩
    rw [h] at h2
    simpa using h2
  | structV a b =>
    have h2 := hr m (elemIfPtr f) (.structV a b)
    dsimp only
    rcases h : recurse m (elemIfPtr f) (.structV a b) with ⟨i, ab, m'⟩
    rw [h] at h2
    simpa using h2
  | nilSlice e =>
    have h2 := hr m (elemIfPtr f) (.nilSlice e)
    dsimp only
    rcases h : recurse m (elemIfPtr f) (.nilSlice e) with ⟨i, ab, m'⟩
    rw [h] at h2
    simpa using h2
  | sliceV a b =>
    have h2 := hr m (elemIfPtr f) (.sliceV a b)
    dsimp only
    rcases h : recurse m (elemIfPtr f) (.sliceV a b) with ⟨i, ab, m'⟩
    rw [h] at h2
    simpa using h2
  | arrayV a b =>
    have h2 := hr m (elemIfPtr f) (.arrayV a b)
    dsimp only
    rcases h : recurse m (elemIfPtr f) (.arrayV a b) with ⟨i, ab, m'⟩
    rw [h] at h2
    simpa using h2

/-- Equation form of `setArrayValue_converters`. -/
theorem setArrayValue_converters_eq (recurse : RecFn) (env : StructEnv)
    (fuel : Nat) (fe te : GoType)
    (hr : ∀ m f t, ((recurse m f t).2.2).converters = m.converters)
    (vs : List GoVal) (m : Mapper) (x : List GoVal) (ab : Option Abort)
    (m' : Mapper)
    (heq : setArrayValue recurse env fuel fe te m vs = (x, ab, m')) :
    m'.converters = m.converters := by
  have h := setArrayValue_converters recurse env fuel fe te hr vs m
  rw [heq] at h
  exact h

/-- `mapSlicesFunc` preserves the registry. -/
theorem mapSlicesFunc_converters (recurse : RecFn) (env : StructEnv)
    (fuel : Nat) (m : Mapper) (f t : GoVal)
    (hr : ∀ m f t, ((recurse m f t).2.2).converters = m.converters) :
    ((mapSlicesFunc recurse env fuel m f t).2.2).converters =
      m.converters := by
  unfold mapSlicesFunc
  split
  · split
    · rfl
    · split
      · rename_i heq
        simpa using setArrayValue_converters_eq recurse env fuel _ _ hr _ m
          _ _ _ heq
      · rename_i heq
        simpa using setArrayValue_converters_eq recurse env fuel _ _ hr _ m
          _ _ _ heq
      · rename_i heq
        simpa using setArrayValue_converters_eq recurse env fuel _ _ hr _ m
          _ _ _ heq
    · rfl
  · rfl

/-- `mapArraysFunc` preserves the registry. -/
theorem mapArraysFunc_converters (recurse : RecFn) (env : StructEnv)
    (fuel : Nat) (m : Mapper) (f t : GoVal)
    (hr : ∀ m f t, ((recurse m f t).2.2).converters = m.converters) :
    ((mapArraysFunc recurse env fuel m f t).2.2).converters =
      m.converters := by
  unfold mapArraysFunc
  split
  · split
    · split
      · rename_i heq
        simpa using setArrayValue_converters_eq recurse env fuel _ _ hr _ m
          _ _ _ heq
      · rename_i heq
        simpa using setArrayValue_converters_eq recurse env fuel _ _ hr _ m
          _ _ _ heq
      · rename_i heq
        have h2 := setArrayValue_converters_eq recurse env fuel _ _ hr _ m
          _ _ _ heq
        split <;> simpa using h2
    · rfl
  · rfl

/-- `applyStrat` preserves the registry. -/
theorem applyStrat_converters (recurse : RecFn) (env : StructEnv)
    (fuel : Nat) (m : Mapper) (st : supportedType) (f t : GoVal)
    (hr : ∀ m f t, ((recurse m f t).2.2).converters = m.converters) :
    ((applyStrat recurse env fuel m st f t).2.2).converters =
      m.converters := by
  cases st with
  | structs => exact mapStructsFunc_converters recurse env fuel m f t hr
  | slices => exact mapSlicesFunc_converters recurse env fuel m f t hr
  | arrays => exact mapArraysFunc_converters recurse env fuel m f t hr
  | sameTypes =>
    unfold applyStrat
    rcases mapSameTypesFunc f t with ⟨v, ab⟩
    rfl
  | converterFunc =>
    unfold applyStrat
    rcases mapConverterFunc m f t with ⟨v, ab⟩
    rfl
  | unsupported => rfl

/-- Equation form of `applyStrat_converters`. -/
theorem applyStrat_converters_eq (recurse : RecFn) (env : StructEnv)
    (fuel : Nat) (m : Mapper) (st : supportedType) (f t : GoVal)
    (hr : ∀ m f t, ((recurse m f t).2.2).converters = m.converters)
    (nf : GoVal) (ab : Option Abort) (m' : Mapper)
    (heq : applyStrat recurse env fuel m st f t = (nf, ab, m')) :
    m'.converters = m.converters := by
  have h := applyStrat_converters recurse env fuel m st f t hr
  rw [heq] at h
  exact h

/-- `mapKnownStruct` preserves the registry. -/
theorem mapKnownStruct_converters (recurse : RecFn) (env : StructEnv)
    (fuel : Nat)
    (hr : ∀ m f t, ((recurse m f t).2.2).converters = m.converters) :
    ∀ (plan : List fieldMappingInfo) (m : Mapper) (fv tv : GoVal),
      ((mapKnownStruct recurse env fuel plan m fv tv).2.2).converters =
        m.converters := by
  intro plan
  induction plan with
  | nil => intro m fv tv; rfl
  | cons e rest ih =>
    intro m fv tv
    rw [mapKnownStruct]
    rcases h : applyStrat recurse env fuel m e.strat (fv.fieldAt e.fromIndex)
      (tv.fieldAt e.toIndex) with ⟨nf, ab, m'⟩
    have h2 := applyStrat_converters_eq recurse env fuel m e.strat _ _ hr
      _ _ _ h
    cases ab with
    | some a => simpa using h2
    | none => simpa using (ih m' fv _).trans h2

/-- `processFields` preserves the registry. -/
theorem processFields_converters (recurse : RecFn) (env : StructEnv)
    (fuel : Nat) (key : GoType × GoType)
    (hr : ∀ m f t, ((recurse m f t).2.2).converters = m.converters) :
    ∀ (entries toFields : List (String × fieldInfo)) (m : Mapper)
      (toV : GoVal),
      ((processFields recurse env fuel key entries toFields m toV).2.2).converters
        = m.converters := by
  intro entries
  induction entries with
  | nil => intro toFields m toV; rfl
  | cons p rest ih =>
    intro toFields m toV
    rw [processFields]
    rcases p with ⟨name, fromVal⟩
    cases lookupF toFields name with
    | none => exact ih toFields m toV
    | some toVal =>
      dsimp only
      split
      · rcases h : applyStrat recurse env fuel m
            (detectMappingType m fromVal toVal) fromVal.val toVal.val with
          ⟨nf, ab, m'⟩
        have h2 := applyStrat_converters_eq recurse env fuel m
          (detectMappingType m fromVal toVal) _ _ hr _ _ _ h
        cases ab with
        | some a => simpa using h2
        | none =>
          have h4 := ih toFields
            { m' with
                knownMappings := appendKM m'.knownMappings key
                  ⟨fromVal.index, toVal.index,
                   detectMappingType m fromVal toVal⟩ }
            (toV.updateField toVal.index nf)
          simpa using h4.trans h2
      · rfl

/-- `mapStructs` preserves the registry. -/
theorem mapStructs_converters (env : StructEnv) :
    ∀ (fuel : Nat) (m : Mapper) (f : Option GoVal) (t : GoVal),
      ((mapStructs env fuel m f t).2.2).converters = m.converters := by
  intro fuel
  induction fuel with
  | zero => intro m f t; rfl
  | succ fuel ih =>
    intro m f t
    rw [mapStructs.eq_def]
    cases f with
    | none => rfl
    | some fromV =>
      dsimp only
      cases hkm : lookupKM m.knownMappings (fromV.typeOf, t.typeOf) with
      | none =>
        rcases hgf : getFieldInfo env fromV t with ⟨fromFields, toFields⟩
        have h3 := processFields_converters (mapStructs env fuel) env fuel
          (fromV.typeOf, t.typeOf) ih fromFields toFields
          { m with
              knownMappings :=
                storeKM m.knownMappings (fromV.typeOf, t.typeOf) [],
              discoveries := m.discoveries + 1 } t
        simpa [hgf] using h3
      | some plan =>
        rcases hrep : mapKnownStruct (mapStructs env fuel) env fuel plan m
          fromV t with ⟨toV1, ab1, m1⟩
        have h2 := mapKnownStruct_converters (mapStructs env fuel) env fuel
          ih plan m fromV t
        rw [hrep] at h2
        dsimp only
        rw [hrep]
        cases ab1 with
        | some a => simpa using h2
        | none =>
          rcases hgf : getFieldInfo env fromV toV1 with ⟨fromFields, toFields⟩
          have h3 := processFields_converters (mapStructs env fuel) env fuel
            (fromV.typeOf, t.typeOf) ih fromFields toFields
            { m1 with
                knownMappings :=
                  storeKM m1.knownMappings (fromV.typeOf, t.typeOf) [],
                discoveries := m1.discoveries + 1 } toV1
          simpa [hgf] using h3.trans h2

/-! ## C4: an unmappable matched pair is never silently skipped -/

/-- `detectMappingType` reads the mapper state only through the
converter registry. -/
theorem detectMappingType_congr (m m' : Mapper) (fv tv : fieldInfo)
    (h : m'.converters = m.converters) :
    detectMappingType m' fv tv = detectMappingType m fv tv := by
  unfold detectMappingType
  rw [h]

/-- A successful `lookupF` comes from an entry of the list. -/
theorem lookupF_mem (l : List (String × fieldInfo)) (k : String)
    (v : fieldInfo) (h : lookupF l k = some v) : (k, v) ∈ l := by
  unfold lookupF at h
  cases hf : l.find? (fun p => p.1 == k) with
  | none => rw [hf] at h; cases h
  | some p =>
    rw [hf] at h
    have h1 := List.find?_some hf
    have h2 := List.mem_of_find?_eq_some hf
    simp only [Option.map_some', Option.some.injEq] at h
    simp only [beq_iff_eq] at h1
    rw [← h, ← h1]
    exact h2

/-- If the discovery loop finishes without an abort, then every entry of
the source field map whose key has a destination counterpart was
classified to a supported strategy. -/
theorem processFields_complete (recurse : RecFn) (env : StructEnv)
    (fuel : Nat) (key : GoType × GoType)
    (hr : ∀ m f t, ((recurse m f t).2.2).converters = m.converters) :
    ∀ (entries toFields : List (String × fieldInfo)) (m : Mapper)
      (toV : GoVal),
      (processFields recurse env fuel key entries toFields m toV).2.1 =
        none →
      ∀ p ∈ entries, ∀ tv, lookupF toFields p.1 = some tv →
        detectMappingType m p.2 tv ≠ supportedType.unsupported := by
  intro entries
  induction entries with
  | nil => intro toFields m toV h p hp; cases hp
  | cons q rest ih =>
    intro toFields m toV h p hp tv htv
    rw [processFields] at h
    rcases q with ⟨name, fromVal⟩
    cases hlf : lookupF toFields name with
    | none =>
      rw [hlf] at h
      rcases List.mem_cons.mp hp with hp | hp
      · rw [hp] at htv
        simp only at htv
        rw [htv] at hlf
        cases hlf
      · exact ih toFields m toV h p hp tv htv
    | some toVal =>
      rw [hlf] at h
      dsimp only at h
      split at h
      · rename_i hd
        rcases happ : applyStrat recurse env fuel m
            (detectMappingType m fromVal toVal) fromVal.val toVal.val with
          ⟨nf, ab, m'⟩
        rw [happ] at h
        cases ab with
        | some a => simp at h
        | none =>
          rcases List.mem_cons.mp hp with hp | hp
          · rw [hp] at htv ⊢
            simp only at htv ⊢
            rw [htv] at hlf
            have := Option.some.inj hlf
            rw [this]
            exact hd
          · have hc :
                ({ m' with
                    knownMappings := appendKM m'.knownMappings key
                      ⟨fromVal.index, toVal.index,
                       detectMappingType m fromVal toVal⟩ } :
                  Mapper).converters = m.converters := by
              have := applyStrat_converters_eq recurse env fuel m
                (detectMappingType m fromVal toVal) fromVal.val toVal.val hr
                nf none m' happ
              simpa using this
            have hrec := ih toFields _ _ h p hp tv htv
            rwa [detectMappingType_congr m _ p.2 tv hc] at hrec
      · exact Option.noConfusion h

/-- C4: for every matched (source field, destination field) pair to
which no strategy applies, the mapping call fails; the pair is never
silently skipped. First part: when `mapStructs` returns no abort on a
shape pair with no cached plan, every matched pair (an entry of the
source field map whose key also resolves in the destination field map)
was classified to a supported strategy — contrapositively, an
unmappable matched pair forces an abort. Second part: on the concrete
scenario (source field of type int with value 1, destination field of
type string, no converter registered) the call fails with
`ErrMissingConverter` wrapped with both field types, int and string. -/
theorem c4_unmappable_pair_fails :
    (∀ (env : StructEnv) (fuel : Nat) (m : Mapper) (fromV toV : GoVal)
       (name : String) (fv tv : fieldInfo),
       lookupKM m.knownMappings (fromV.typeOf, toV.typeOf) = none →
       (mapStructs env (fuel + 1) m (some fromV) toV).2.1 = none →
       lookupF (getFieldInfo env fromV toV).1 name = some fv →
       lookupF (getFieldInfo env fromV toV).2 name = some tv →
       detectMappingType m fv tv ≠ supportedType.unsupported) ∧
    (Mapper.Map testEnv 9 Mapper.new
        (.ptrV (.structT "Conv1") (.structV "Conv1" [.prim "int" "1"]))
        (.ptrV (.structT "Conv2") (.structV "Conv2" [.prim "string" ""]))).2.1
      = some (.goError (.missingConverter (.prim "int") (.prim "string"))) := by
  constructor
  · intro env fuel m fromV toV name fv tv hkm hok hf ht
    rw [mapStructs.eq_def] at hok
    dsimp only at hok
    rw [hkm] at hok
    dsimp only at hok
    rcases hgf : getFieldInfo env fromV toV with ⟨fromFields, toFields⟩
    rw [hgf] at hok hf ht
    dsimp only at hok hf ht
    have hcompl := processFields_complete (mapStructs env fuel) env fuel
      (fromV.typeOf, toV.typeOf) (mapStructs_converters env fuel)
      fromFields toFields
      { m with
          knownMappings := storeKM m.knownMappings (fromV.typeOf, toV.typeOf)
            [],
          discoveries := m.discoveries + 1 } toV hok (name, fv)
      (lookupF_mem fromFields name fv hf) tv ht
    have heq := detectMappingType_congr m
      { m with
          knownMappings := storeKM m.knownMappings (fromV.typeOf, toV.typeOf)
            [],
          discoveries := m.discoveries + 1 } fv tv rfl
    simpa [heq] using hcompl
  · rfl

/-- Witness for C4: a concrete successful mapping (the Simple1 to
Simple2 scenario) discharging every hypothesis of the first part, with
the matched pair of the Int fields classified as supported. -/
theorem c4_unmappable_pair_fails_witness :
    lookupKM Mapper.new.knownMappings
        ((GoVal.structV "Simple1"
            [.prim "int" "1", .prim "string" "s", .prim "time.Time" "T"]).typeOf,
          (GoVal.structV "Simple2"
            [.prim "int" "0", .prim "string" "", .prim "time.Time" ""]).typeOf)
      = none ∧
    (mapStructs testEnv (8 + 1) Mapper.new
        (some (.structV "Simple1"
          [.prim "int" "1", .prim "string" "s", .prim "time.Time" "T"]))
        (.structV "Simple2"
          [.prim "int" "0", .prim "string" "", .prim "time.Time" ""])).2.1
      = none ∧
    lookupF (getFieldInfo testEnv
        (.structV "Simple1"
          [.prim "int" "1", .prim "string" "s", .prim "time.Time" "T"])
        (.structV "Simple2"
          [.prim "int" "0", .prim "string" "", .prim "time.Time" ""])).1 "Int"
      = some ⟨0, .prim "int" "1"⟩ ∧
    lookupF (getFieldInfo testEnv
        (.structV "Simple1"
          [.prim "int" "1", .prim "string" "s", .prim "time.Time" "T"])
        (.structV "Simple2"
          [.prim "int" "0", .prim "string" "", .prim "time.Time" ""])).2 "Int"
      = some ⟨0, .prim "int" "0"⟩ ∧
    detectMappingType Mapper.new ⟨0, .prim "int" "1"⟩ ⟨0, .prim "int" "0"⟩ ≠
      supportedType.unsupported :=
  ⟨rfl, rfl, rfl, rfl,
   c4_unmappable_pair_fails.1 testEnv 8 Mapper.new
     (.structV "Simple1"
       [.prim "int" "1", .prim "string" "s", .prim "time.Time" "T"])
     (.structV "Simple2"
       [.prim "int" "0", .prim "string" "", .prim "time.Time" ""])
     "Int" ⟨0, .prim "int" "1"⟩ ⟨0, .prim "int" "0"⟩ rfl rfl rfl rfl⟩

/-! ## C3: converter priority and single-return success -/

/-- C3 (amended): a registered converter for the exact (source type,
destination type) pair is selected in preference to every other
strategy, including the identical-type copy; the destination field is
set to the converter returned value; and for a single-return converter
the call reports no error for that field. The last two parts run the
concrete int-to-string scenario through `Map`: the destination field
becomes the string 1 with no error. (The claim as stated also asserted
no error for a succeeding two-return converter, which the code refutes;
see the counterexample.) -/
theorem c3_converter_priority :
    (∀ (m : Mapper) (fv tv : fieldInfo),
       (lookupConv m.converters fv.val.typeOf tv.val.typeOf).isSome →
       detectMappingType m fv tv = supportedType.converterFunc) ∧
    (∀ (m : Mapper) (fromVal toVal : GoVal) (c : ConvFn),
       lookupConv m.converters fromVal.typeOf toVal.typeOf = some c →
       c.snd = none →
       (c.fn fromVal).typeOf = toVal.typeOf →
       mapConverterFunc m fromVal toVal = (c.fn fromVal, none)) ∧
    (Mapper.Map testEnv 9 (Mapper.new.set intToString)
        (.ptrV (.structT "CS1") (.structV "CS1" [.prim "int" "1"]))
        (.ptrV (.structT "CS2") (.structV "CS2" [.prim "string" ""]))).1
      = .ptrV (.structT "CS2") (.structV "CS2" [.prim "string" "1"]) ∧
    (Mapper.Map testEnv 9 (Mapper.new.set intToString)
        (.ptrV (.structT "CS1") (.structV "CS1" [.prim "int" "1"]))
        (.ptrV (.structT "CS2") (.structV "CS2" [.prim "string" ""]))).2.1
      = none := by
  refine ⟨?_, ?_, rfl, rfl⟩
  · intro m fv tv h
    unfold detectMappingType
    simp only [h, if_true]
  · intro m fromVal toVal c h1 h2 h3
    unfold mapConverterFunc
    rw [h1]
    dsimp only
    rw [if_pos h3, h2]

/-- Witness for C3: the registered int-to-string converter wins the
classification for the int and string field values, and the
single-return invocation sets the field and reports no error. -/
theorem c3_converter_priority_witness :
    (lookupConv (Mapper.new.set intToString).converters
        (GoVal.prim "int" "1").typeOf (GoVal.prim "string" "").typeOf).isSome
      = true ∧
    detectMappingType (Mapper.new.set intToString) ⟨0, .prim "int" "1"⟩
        ⟨0, .prim "string" ""⟩
      = supportedType.converterFunc ∧
    mapConverterFunc (Mapper.new.set intToString) (.prim "int" "1")
        (.prim "string" "")
      = (.prim "string" "1", none) :=
  ⟨rfl,
   c3_converter_priority.1 (Mapper.new.set intToString)
     ⟨0, .prim "int" "1"⟩ ⟨0, .prim "string" ""⟩ rfl,
   c3_converter_priority.2.1 (Mapper.new.set intToString) (.prim "int" "1")
     (.prim "string" "") intToString rfl rfl rfl⟩

/-! ## C8: converter failure wrapping -/

/-- C8 (amended): for every invocation of a registered two-return
converter that reports failure, the field mapping (and with it the whole
call, which aborts on the first field error) fails with the
`ErrConverter` wrapping of the converter-reported message; in this
revision the destination field name is not part of the error. -/
theorem c8_converter_error_wraps (m : Mapper) (fromVal toVal : GoVal)
    (c : ConvFn) (g : GoVal → SndRet) (msg : String)
    (h1 : lookupConv m.converters fromVal.typeOf toVal.typeOf = some c)
    (h2 : c.snd = some g) (h3 : g fromVal = .errVal msg)
    (h4 : (c.fn fromVal).typeOf = toVal.typeOf) :
    mapConverterFunc m fromVal toVal =
      (c.fn fromVal, some (.goError (.converter msg))) := by
  unfold mapConverterFunc
  rw [h1]
  dsimp only
  rw [if_pos h4, h2]
  dsimp only
  rw [h3]

/-- Witness for C8: the failing int-to-string converter on a concrete
field value, with every hypothesis discharged by computation. -/
theorem c8_converter_error_wraps_witness :
    lookupConv (Mapper.new.set intToStringBoom).converters
        (GoVal.prim "int" "3").typeOf (GoVal.prim "string" "").typeOf
      = some intToStringBoom ∧
    intToStringBoom.snd = some boomSnd ∧
    boomSnd (.prim "int" "3") = .errVal "boom" ∧
    (intToStringBoom.fn (.prim "int" "3")).typeOf =
      (GoVal.prim "string" "").typeOf ∧
    mapConverterFunc (Mapper.new.set intToStringBoom) (.prim "int" "3")
        (.prim "string" "")
      = (.prim "string" "3", some (.goError (.converter "boom"))) :=
  ⟨rfl, rfl, rfl, rfl,
   c8_converter_error_wraps (Mapper.new.set intToStringBoom)
     (.prim "int" "3") (.prim "string" "") intToStringBoom boomSnd "boom"
     rfl rfl rfl rfl⟩

/-! ## C7: fixed-length arrays of differing length -/

/-- A successful `setArrayValue` produces one destination element per
source element. -/
theorem setArrayValue_length (recurse : RecFn) (env : StructEnv)
    (fuel : Nat) (fe te : GoType) :
    ∀ (vs : List GoVal) (m : Mapper) (es : List GoVal) (m' : Mapper),
      setArrayValue recurse env fuel fe te m vs = (es, none, m') →
      es.length = vs.length := by
  intro vs
  induction vs with
  | nil =>
    intro m es m' h
    rw [setArrayValue] at h
    simp only [Prod.mk.injEq] at h
    rw [← h.1]
  | cons v vs ih =>
    intro m es m' h
    rw [setArrayValue] at h
    rcases hel : setArrayElem recurse env fuel fe te m v with ⟨mi, ab, mm⟩
    rw [hel] at h
    cases ab with
    | some a => simp at h
    | none =>
      dsimp only at h
      rcases hrest : setArrayValue recurse env fuel fe te mm vs with
        ⟨rest, ab2, m2⟩
      rw [hrest] at h
      simp only [Prod.mk.injEq] at h
      obtain ⟨h1, h2, h3⟩ := h
      rw [← h1]
      simp only [List.length_cons]
      rw [ih mm rest m2 (by rw [hrest, h2])]

/-- C7 (amended): for every matched pair of fixed-length array fields
(struct element types) whose source length differs from the destination
length, the mapping call aborts — with a runtime panic from the
`reflect.Set` of the differently-lengthed built array when the element
mapping itself succeeded — and the destination array is left untouched:
it is never silently truncated or padded. -/
theorem c7_array_length_mismatch_aborts (recurse : RecFn)
    (env : StructEnv) (fuel : Nat) (m : Mapper) (e1 e2 : GoType)
    (elems tvals : List GoVal) (hk : elems.length ≠ tvals.length) :
    (mapArraysFunc recurse env fuel m (.arrayV e1 elems)
        (.arrayV e2 tvals)).1 = .arrayV e2 tvals ∧
    (mapArraysFunc recurse env fuel m (.arrayV e1 elems)
        (.arrayV e2 tvals)).2.1 ≠ none := by
  unfold mapArraysFunc
  dsimp only [GoVal.typeOf]
  rcases hsv : setArrayValue recurse env fuel e1 e2 m elems with ⟨es, ab, m'⟩
  cases ab with
  | some a =>
    cases a with
    | goError e => exact ⟨rfl, by simp⟩
    | goPanic p => exact ⟨rfl, by simp⟩
  | none =>
    have hlen := setArrayValue_length recurse env fuel e1 e2 elems m es m' hsv
    have hne : ¬ (GoType.array es.length e2 =
        GoType.array tvals.length e2) := by
      simp only [GoType.array.injEq]
      intro hh
      exact hk (by rw [← hlen, hh.1])
    dsimp only
    rw [if_neg hne]
    exact ⟨rfl, by simp⟩

/-- Witness for C7: concrete arrays of lengths 2 and 1 with struct
elements; the strategy leaves the destination untouched and aborts. -/
theorem c7_array_length_mismatch_aborts_witness :
    (([GoVal.structV "E1" [.prim "int" "1"],
       GoVal.structV "E1" [.prim "int" "1"]] : List GoVal).length ≠
      ([GoVal.structV "E2" [.prim "int" "0"]] : List GoVal).length) ∧
    (mapArraysFunc (mapStructs testEnv 7) testEnv 7 Mapper.new
        (.arrayV (.structT "E1")
          [.structV "E1" [.prim "int" "1"], .structV "E1" [.prim "int" "1"]])
        (.arrayV (.structT "E2") [.structV "E2" [.prim "int" "0"]])).1
      = .arrayV (.structT "E2") [.structV "E2" [.prim "int" "0"]] ∧
    (mapArraysFunc (mapStructs testEnv 7) testEnv 7 Mapper.new
        (.arrayV (.structT "E1")
          [.structV "E1" [.prim "int" "1"], .structV "E1" [.prim "int" "1"]])
        (.arrayV (.structT "E2") [.structV "E2" [.prim "int" "0"]])).2.1
      ≠ none :=
  ⟨by decide,
   (c7_array_length_mismatch_aborts (mapStructs testEnv 7) testEnv 7
     Mapper.new (.structT "E1") (.structT "E2")
     [.structV "E1" [.prim "int" "1"], .structV "E1" [.prim "int" "1"]]
     [.structV "E2" [.prim "int" "0"]] (by decide)).1,
   (c7_array_length_mismatch_aborts (mapStructs testEnv 7) testEnv 7
     Mapper.new (.structT "E1") (.structT "E2")
     [.structV "E1" [.prim "int" "1"], .structV "E1" [.prim "int" "1"]]
     [.structV "E2" [.prim "int" "0"]] (by decide)).2⟩

/-! ## C1: identical shapes map field-for-field -/

/-- `getD` after `set` at the written index. -/
theorem getD_set_self (l : List GoVal) (i : Nat) (a d : GoVal)
    (h : i < l.length) : (l.set i a).getD i d = a := by
  rw [List.getD_eq_get?, List.get?_set_eq_of_lt a h]
  rfl

/-- `getD` after `set` at another index. -/
theorem getD_set_ne (l : List GoVal) (i j : Nat) (a d : GoVal)
    (h : i ≠ j) : (l.set i a).getD j d = l.getD j d := by
  rw [List.getD_eq_get?, List.get?_set_ne a l h, ← List.getD_eq_get?]

/-- The contents a `collectFields` loop adds when no key collision
happens: the kept fields in declaration order, keyed by `fieldKey`. -/
def collectSpec (keep : FieldDecl → GoVal → Bool) :
    Nat → List FieldDecl → List GoVal → List (String × fieldInfo)
  | _, [], _ => []
  | _, _, [] => []
  | i, d :: ds, v :: vs =>
    if keep d v then (fieldKey d, ⟨i, v⟩) :: collectSpec keep (i + 1) ds vs
    else collectSpec keep (i + 1) ds vs

/-- `upsertF` with a key absent from the map appends. -/
theorem upsertF_fresh (l : List (String × fieldInfo)) (k : String)
    (v : fieldInfo) (h : ∀ p ∈ l, p.1 ≠ k) :
    upsertF l k v = l ++ [(k, v)] := by
  unfold upsertF
  have hfalse : (l.any (fun p => p.1 == k)) = false := by
    rw [List.any_eq_false]
    intro p hp
    simpa using h p hp
  rw [hfalse]
  simp

/-- With pairwise distinct field keys (and an accumulator whose keys do
not occur among them), the Go-map insertion loop of `getFieldInfo` is
plain accumulation: `collectFields` appends `collectSpec`. -/
theorem collectFields_spec (keep : FieldDecl → GoVal → Bool) :
    ∀ (decls : List FieldDecl) (vals : List GoVal) (i : Nat)
      (acc : List (String × fieldInfo)),
      (decls.map fieldKey).Nodup →
      (∀ p ∈ acc, p.1 ∉ decls.map fieldKey) →
      collectFields keep i decls vals acc =
        acc ++ collectSpec keep i decls vals := by
  intro decls
  induction decls with
  | nil =>
    intro vals i acc hnd hacc
    cases vals <;> simp [collectFields, collectSpec]
  | cons d ds ih =>
    intro vals i acc hnd hacc
    cases vals with
    | nil => simp [collectFields, collectSpec]
    | cons v vs =>
      rw [collectFields, collectSpec]
      have hx := hnd
      rw [List.map_cons, List.nodup_cons] at hx
      have hdk : fieldKey d ∉ ds.map fieldKey := hx.1
      have hnd' : (ds.map fieldKey).Nodup := hx.2
      by_cases hk : keep d v = true
      · rw [if_pos hk, if_pos hk]
        have hfresh : ∀ p ∈ acc, p.1 ≠ fieldKey d := by
          intro p hp
          have := hacc p hp
          simp only [List.map_cons, List.mem_cons, not_or] at this
          exact this.1
        rw [upsertF_fresh acc (fieldKey d) ⟨i, v⟩ hfresh]
        have hfr : ∀ p ∈ acc ++ [(fieldKey d, (⟨i, v⟩ : fieldInfo))],
            p.1 ∉ ds.map fieldKey := by
          intro p hp
          rcases List.mem_append.mp hp with hp | hp
          · have := hacc p hp
            simp only [List.map_cons, List.mem_cons, not_or] at this
            exact this.2
          · simp only [List.mem_singleton] at hp
            rw [hp]
            exact hdk
        rw [ih vs (i + 1) (acc ++ [(fieldKey d, (⟨i, v⟩ : fieldInfo))]) hnd' hfr]
        simp
      · rw [if_neg hk, if_neg hk]
        have hfr2 : ∀ p ∈ acc, p.1 ∉ ds.map fieldKey := by
          intro p hp
          have := hacc p hp
          simp only [List.map_cons, List.mem_cons, not_or] at this
          exact this.2
        rw [ih vs (i + 1) acc hnd' hfr2]

/-- Looking a field key up in the destination map built from fully kept
declarations (pairwise distinct keys, all fields kept) finds exactly the
field with that declaration position. -/
theorem lookupF_collectSpec (keep : FieldDecl → GoVal → Bool) :
    ∀ (decls : List FieldDecl) (vals : List GoVal) (i0 : Nat)
      (j : Nat) (hj : j < decls.length),
      decls.length = vals.length →
      (decls.map fieldKey).Nodup →
      (∀ d ∈ decls, ∀ v, keep d v = true) →
      lookupF (collectSpec keep i0 decls vals)
          (fieldKey (decls.get ⟨j, hj⟩)) =
        some ⟨i0 + j, vals.getD j dV⟩ := by
  intro decls
  induction decls with
  | nil => intro vals i0 j hj; cases hj
  | cons d ds ih =>
    intro vals i0 j hj hlen hnd hkeep
    cases vals with
    | nil => cases hlen
    | cons v vs =>
      rw [collectSpec, if_pos (hkeep d (List.mem_cons_self d ds) v)]
      have hx := hnd
      rw [List.map_cons, List.nodup_cons] at hx
      cases j with
      | zero =>
        simp only [List.get]
        unfold lookupF
        rw [List.find?]
        simp
      | succ j =>
        have hj' : j < ds.length := Nat.lt_of_succ_lt_succ hj
        have hne : fieldKey d ≠ fieldKey (ds.get ⟨j, hj'⟩) := by
          intro he
          exact hx.1 (he ▸ List.mem_map_of_mem fieldKey (ds.get_mem j hj'))
        have hstep : lookupF
            ((fieldKey d, (⟨i0, v⟩ : fieldInfo)) ::
              collectSpec keep (i0 + 1) ds vs)
            (fieldKey (ds.get ⟨j, hj'⟩)) =
            lookupF (collectSpec keep (i0 + 1) ds vs)
              (fieldKey (ds.get ⟨j, hj'⟩)) := by
          unfold lookupF
          rw [List.find?]
          have hbe : ((fieldKey d, (⟨i0, v⟩ : fieldInfo)).1 ==
              fieldKey (ds.get ⟨j, hj'⟩)) = false := by
            simpa using hne
          rw [hbe]
        have hkeep' : ∀ d ∈ ds, ∀ v, keep d v = true := fun d hd v =>
          hkeep d (List.mem_cons_of_mem _ hd) v
        have hrec := ih vs (i0 + 1) j hj' (by simpa using hlen) hx.2 hkeep'
        simp only [List.get]
        rw [hstep, hrec]
        congr 2
        omega

/-- The discovery loop on the source field map of a shape whose matched
destination fields have identical types and no registered converters:
every kept source field is classified `sameTypes` and copied verbatim to
the destination field position found by the key lookup; all other
destination positions keep their values, and no abort happens. -/
theorem processFields_sameTypes (recurse : RecFn) (env : StructEnv)
    (fuel : Nat) (key : GoType × GoType)
    (toFields : List (String × fieldInfo)) :
    ∀ (decls : List FieldDecl) (fvals : List GoVal) (i0 : Nat) (m : Mapper)
      (tn : String) (cur : List GoVal),
      m.converters = [] →
      decls.length = fvals.length →
      (∀ j (hj : j < decls.length),
        ∃ tv : fieldInfo,
          lookupF toFields (fieldKey (decls.get ⟨j, hj⟩)) = some tv ∧
          tv.index = i0 + j ∧
          tv.val.typeOf = (fvals.getD j dV).typeOf ∧
          i0 + j < cur.length) →
      ∃ (cur' : List GoVal) (m' : Mapper),
        processFields recurse env fuel key
            (collectSpec (fun _ v => !skipSrc v) i0 decls fvals) toFields m
            (.structV tn cur)
          = (.structV tn cur', none, m') ∧
        cur'.length = cur.length ∧
        (∀ j, j < decls.length →
          cur'.getD (i0 + j) dV =
            if skipSrc (fvals.getD j dV) then cur.getD (i0 + j) dV
            else fvals.getD j dV) ∧
        (∀ idx, idx < i0 → cur'.getD idx dV = cur.getD idx dV) ∧
        (∀ idx, i0 + decls.length ≤ idx →
          cur'.getD idx dV = cur.getD idx dV) := by
  intro decls
  induction decls with
  | nil =>
    intro fvals i0 m tn cur hconv hlen hlook
    refine ⟨cur, m, ?_, rfl, ?_, fun idx _ => rfl, fun idx _ => rfl⟩
    · cases fvals <;> rfl
    · intro j hj; cases hj
  | cons d ds ih =>
    intro fvals i0 m tn cur hconv hlen hlook
    cases fvals with
    | nil => cases hlen
    | cons v vs =>
      obtain ⟨tv, hlk, hidx, hty, hbound⟩ := hlook 0 (Nat.succ_pos _)
      simp only [List.get, List.getD_cons_zero] at hlk hidx hty hbound
      by_cases hsk : skipSrc v = true
      · -- the source field is skipped by the matcher
        rw [collectSpec, if_neg (by simp [hsk])]
        have hlook' : ∀ j (hj : j < ds.length),
            ∃ tv : fieldInfo,
              lookupF toFields (fieldKey (ds.get ⟨j, hj⟩)) = some tv ∧
              tv.index = (i0 + 1) + j ∧
              tv.val.typeOf = (vs.getD j dV).typeOf ∧
              (i0 + 1) + j < cur.length := by
          intro j hj
          obtain ⟨tv', h1, h2, h3, h4⟩ :=
            hlook (j + 1) (Nat.succ_lt_succ hj)
          refine ⟨tv', ?_, ?_, ?_, ?_⟩
          · simpa using h1
          · rw [h2]; omega
          · simpa using h3
          · omega
        obtain ⟨cur', m', hrun, hclen, hin, hlow, hhigh⟩ :=
          ih vs (i0 + 1) m tn cur hconv (by simpa using hlen) hlook'
        refine ⟨cur', m', hrun, hclen, ?_, ?_, ?_⟩
        · intro j hj
          cases j with
          | zero =>
            simp only [List.getD_cons_zero, hsk, if_true]
            exact hlow i0 (Nat.lt_succ_self i0)
          | succ j =>
            have := hin j (Nat.lt_of_succ_lt_succ hj)
            simp only [List.getD_cons_succ]
            rw [show i0 + (j + 1) = (i0 + 1) + j by omega]
            exact this
        · intro idx hidx2
          exact hlow idx (Nat.lt_succ_of_lt hidx2)
        · intro idx hidx2
          simp only [List.length_cons] at hidx2
          exact hhigh idx (by omega)
      · -- the source field is kept and copied
        rw [collectSpec, if_pos (by simp [hsk])]
        rw [processFields, hlk]
        dsimp only
        have hdet : detectMappingType m ⟨i0, v⟩ tv =
            supportedType.sameTypes := by
          unfold detectMappingType
          rw [hconv]
          simp [lookupConv, hty]
        rw [hdet, if_pos (by decide : supportedType.sameTypes ≠
          supportedType.unsupported)]
        have happ : applyStrat recurse env fuel m supportedType.sameTypes v
            tv.val = (v, none, m) := by
          unfold applyStrat mapSameTypesFunc
          dsimp only
          rw [if_pos hty.symm]
        rw [happ]
        dsimp only
        rw [hidx]
        have hupd : (GoVal.structV tn cur).updateField (i0 + 0) v =
            .structV tn (cur.set i0 v) := by
          simp [GoVal.updateField]
        rw [hupd]
        have hconv'' :
            ({ m with
                knownMappings := appendKM m.knownMappings key
                  ⟨i0, i0 + 0, supportedType.sameTypes⟩ } :
              Mapper).converters = [] := hconv
        have hlook' : ∀ j (hj : j < ds.length),
            ∃ tv : fieldInfo,
              lookupF toFields (fieldKey (ds.get ⟨j, hj⟩)) = some tv ∧
              tv.index = (i0 + 1) + j ∧
              tv.val.typeOf = (vs.getD j dV).typeOf ∧
              (i0 + 1) + j < (cur.set i0 v).length := by
          intro j hj
          obtain ⟨tv', h1, h2, h3, h4⟩ :=
            hlook (j + 1) (Nat.succ_lt_succ hj)
          refine ⟨tv', ?_, ?_, ?_, ?_⟩
          · simpa using h1
          · rw [h2]; omega
          · simpa using h3
          · rw [List.length_set]; omega
        obtain ⟨cur', m', hrun, hclen, hin, hlow, hhigh⟩ :=
          ih vs (i0 + 1)
            { m with
                knownMappings := appendKM m.knownMappings key
                  ⟨i0, i0 + 0, supportedType.sameTypes⟩ }
            tn (cur.set i0 v) hconv (by simpa using hlen) hlook'
        refine ⟨cur', m', ?_, ?_, ?_, ?_, ?_⟩
        · exact hrun
        · rw [hclen, List.length_set]
        · intro j hj
          cases j with
          | zero =>
            simp only [List.getD_cons_zero, hsk, if_false]
            rw [Nat.add_zero]
            rw [hlow i0 (Nat.lt_succ_self i0)]
            exact getD_set_self cur i0 v dV (by omega)
          | succ j =>
            have := hin j (Nat.lt_of_succ_lt_succ hj)
            simp only [List.getD_cons_succ]
            rw [show i0 + (j + 1) = (i0 + 1) + j by omega]
            rw [this]
            by_cases hsk2 : skipSrc (vs.getD j dV) = true
            · rw [if_pos hsk2, if_pos hsk2]
              exact getD_set_ne cur i0 ((i0 + 1) + j) v dV (by omega)
            · rw [if_neg hsk2, if_neg hsk2]
        · intro idx hidx2
          rw [hlow idx (Nat.lt_succ_of_lt hidx2)]
          exact getD_set_ne cur i0 idx v dV (by omega)
        · intro idx hidx2
          simp only [List.length_cons] at hidx2
          rw [hhigh idx (by omega)]
          exact getD_set_ne cur i0 idx v dV (by omega)

/-- C1: for every pair of record shapes with identical field
declarations (same names, tags, types; pairwise distinct matching keys;
all fields settable), with no registered converters and an empty plan
cache, `Map` returns no error and copies each source field whose value
is non-zero and non-absent into the destination field of the same name;
destination fields whose source value is zero or a nil pointer keep
their prior values. -/
theorem c1_identical_shapes_map (env : StructEnv) (fuel : Nat) (m : Mapper)
    (sname tname : String) (decls : List FieldDecl)
    (fvals tvals : List GoVal)
    (hconv : m.converters = [])
    (hkm : m.knownMappings = [])
    (hs : lookupStruct env sname = decls)
    (ht : lookupStruct env tname = decls)
    (hnd : (decls.map fieldKey).Nodup)
    (hset : ∀ d ∈ decls, d.settable = true)
    (hfl : decls.length = fvals.length)
    (htl : decls.length = tvals.length)
    (hft : ∀ j (hj : j < decls.length),
      (fvals.getD j dV).typeOf = (decls.get ⟨j, hj⟩).type)
    (htt : ∀ j (hj : j < decls.length),
      (tvals.getD j dV).typeOf = (decls.get ⟨j, hj⟩).type) :
    ∃ (cur' : List GoVal) (m' : Mapper),
      Mapper.Map env (fuel + 1) m
          (.ptrV (.structT sname) (.structV sname fvals))
          (.ptrV (.structT tname) (.structV tname tvals)) =
        (.ptrV (.structT tname) (.structV tname cur'), none, m') ∧
      cur'.length = tvals.length ∧
      ∀ j, j < decls.length →
        cur'.getD j dV =
          if skipSrc (fvals.getD j dV) then tvals.getD j dV
          else fvals.getD j dV := by
  have hkmnone : lookupKM m.knownMappings
      (GoType.structT sname, GoType.structT tname) = none := by
    rw [hkm]; rfl
  have hgf : getFieldInfo env (.structV sname fvals) (.structV tname tvals) =
      (collectSpec (fun _ v => !skipSrc v) 0 decls fvals,
       collectSpec (fun d _ => d.settable) 0 decls tvals) := by
    unfold getFieldInfo
    dsimp only
    rw [hs, ht]
    rw [collectFields_spec _ decls fvals 0 [] hnd (by intro p hp; cases hp),
        collectFields_spec _ decls tvals 0 [] hnd (by intro p hp; cases hp)]
    simp
  have hlook : ∀ j (hj : j < decls.length),
      ∃ tv : fieldInfo,
        lookupF (collectSpec (fun d _ => d.settable) 0 decls tvals)
            (fieldKey (decls.get ⟨j, hj⟩)) = some tv ∧
        tv.index = 0 + j ∧
        tv.val.typeOf = (fvals.getD j dV).typeOf ∧
        0 + j < tvals.length := by
    intro j hj
    refine ⟨⟨0 + j, tvals.getD j dV⟩, ?_, rfl, ?_, by omega⟩
    · exact lookupF_collectSpec _ decls tvals 0 j hj htl hnd
        (fun d hd v => hset d hd)
    · show (tvals.getD j dV).typeOf = (fvals.getD j dV).typeOf
      rw [htt j hj, ← hft j hj]
  obtain ⟨cur', m', hrun, hclen, hin, hlow2, hhigh2⟩ :=
    processFields_sameTypes (mapStructs env fuel) env fuel
      (GoType.structT sname, GoType.structT tname)
      (collectSpec (fun d _ => d.settable) 0 decls tvals)
      decls fvals 0
      { m with
          knownMappings := storeKM m.knownMappings
            (GoType.structT sname, GoType.structT tname) [],
          discoveries := m.discoveries + 1 }
      tname tvals hconv hfl hlook
  have hms : mapStructs env (fuel + 1) m
      (some (.structV sname fvals)) (.structV tname tvals) =
      (.structV tname cur', none, m') := by
    rw [mapStructs.eq_def]
    dsimp only [GoVal.typeOf]
    rw [hkmnone]
    dsimp only
    rw [hgf]
    dsimp only
    exact hrun
  refine ⟨cur', m', ?_, by rw [hclen], ?_⟩
  · have hmap : Mapper.Map env (fuel + 1) m
        (.ptrV (.structT sname) (.structV sname fvals))
        (.ptrV (.structT tname) (.structV tname tvals)) =
        (match mapStructs env (fuel + 1) m
            (some (.structV sname fvals)) (.structV tname tvals) with
         | (tv', ab, m') => (.ptrV (.structT tname) tv', ab, m')) := rfl
    rw [hmap, hms]
  · intro j hj
    have := hin j hj
    simpa using this

/-- Witness for C1: the concrete scenario of the spec — source record
`Simple1{Int:1, String:s, Time:T}` mapped into a same-shaped zero
`Simple2` — discharging every hypothesis by computation. -/
theorem c1_identical_shapes_map_witness :
    Mapper.new.converters = [] ∧
    Mapper.new.knownMappings = [] ∧
    lookupStruct testEnv "Simple1" =
      [⟨"Int", "", .prim "int", true⟩, ⟨"String", "", .prim "string", true⟩,
       ⟨"Time", "", .prim "time.Time", true⟩] ∧
    lookupStruct testEnv "Simple2" =
      [⟨"Int", "", .prim "int", true⟩, ⟨"String", "", .prim "string", true⟩,
       ⟨"Time", "", .prim "time.Time", true⟩] ∧
    (([⟨"Int", "", .prim "int", true⟩, ⟨"String", "", .prim "string", true⟩,
       ⟨"Time", "", .prim "time.Time", true⟩] : List FieldDecl).map
        fieldKey).Nodup ∧
    (∀ d ∈ ([⟨"Int", "", .prim "int", true⟩,
       ⟨"String", "", .prim "string", true⟩,
       ⟨"Time", "", .prim "time.Time", true⟩] : List FieldDecl),
      d.settable = true) ∧
    (∃ (cur' : List GoVal) (m' : Mapper),
      Mapper.Map testEnv 9 Mapper.new
          (.ptrV (.structT "Simple1")
            (.structV "Simple1"
              [.prim "int" "1", .prim "string" "s", .prim "time.Time" "T"]))
          (.ptrV (.structT "Simple2")
            (.structV "Simple2"
              [.prim "int" "0", .prim "string" "", .prim "time.Time" ""])) =
        (.ptrV (.structT "Simple2") (.structV "Simple2" cur'), none, m') ∧
      cur'.length =
        ([GoVal.prim "int" "0", .prim "string" "",
          .prim "time.Time" ""] : List GoVal).length ∧
      ∀ j, j < ([⟨"Int", "", .prim "int", true⟩,
          ⟨"String", "", .prim "string", true⟩,
          ⟨"Time", "", .prim "time.Time", true⟩] : List FieldDecl).length →
        cur'.getD j dV =
          if skipSrc (([GoVal.prim "int" "1", .prim "string" "s",
              .prim "time.Time" "T"] : List GoVal).getD j dV) then
            ([GoVal.prim "int" "0", .prim "string" "",
              .prim "time.Time" ""] : List GoVal).getD j dV
          else
            ([GoVal.prim "int" "1", .prim "string" "s",
              .prim "time.Time" "T"] : List GoVal).getD j dV) :=
  ⟨rfl, rfl, rfl, rfl, by decide, by decide,
   c1_identical_shapes_map testEnv 8 Mapper.new "Simple1" "Simple2"
     [⟨"Int", "", .prim "int", true⟩, ⟨"String", "", .prim "string", true⟩,
      ⟨"Time", "", .prim "time.Time", true⟩]
     [.prim "int" "1", .prim "string" "s", .prim "time.Time" "T"]
     [.prim "int" "0", .prim "string" "", .prim "time.Time" ""]
     rfl rfl rfl rfl (by decide) (by decide) rfl rfl (by decide) (by decide)⟩
